import Mathlib

/-
Verification development for the sensecam-control repository
(sensecam_control/vapix_control.py, sensecam_control/vapix_config.py,
sensecam_control/onvif_control.py).

The Python code is shallowly embedded: strings are `List Char`, Python
`int` is `Int`, Python `float` values appearing in these APIs are exact
decimals and are modelled as `Rat`, dictionaries are association lists
with Python `dict.update` semantics, and fallible operations return
`Except PyErr`.
-/

/-- Exceptions the embedded Python fragments can raise.
`indexError` models `IndexError` from out-of-range list indexing,
`valueError` models `ValueError` from `int()` / `float()` on malformed
text, `typeError` models the `TypeError` raised when a `None` attribute
lookup result is called. -/
inductive PyErr where
  | indexError
  | valueError
  | typeError
deriving DecidableEq, Repr

/-- Values that occur in the request-parameter dictionaries: Python ints,
floats (exact decimals, modelled as rationals) and strings. -/
inductive PyVal where
  | int (n : Int)
  | float (q : Rat)
  | str (s : List Char)
deriving DecidableEq, Repr

instance {ε α : Type} [DecidableEq ε] [DecidableEq α] : DecidableEq (Except ε α) :=
  fun a b =>
    match a, b with
    | .ok x, .ok y =>
      if h : x = y then isTrue (by rw [h]) else isFalse (fun hc => by cases hc; exact h rfl)
    | .error x, .error y =>
      if h : x = y then isTrue (by rw [h]) else isFalse (fun hc => by cases hc; exact h rfl)
    | .ok _, .error _ => isFalse (fun hc => by cases hc)
    | .error _, .ok _ => isFalse (fun hc => by cases hc)

/-- The character list of a string literal. -/
def chars (s : String) : List Char := s.data

/-- Whitespace characters recognised by Python `str.split()` with no
arguments. -/
def isSpaceChar (c : Char) : Bool :=
  c == ' ' || c == '\t' || c == '\n' || c == '\r' || c == '\x0b' || c == '\x0c'

/-- Split a character list at every character satisfying `p`, keeping
empty segments (the shape shared by Python `str.split(sep)` for a
one-character separator). The result is always nonempty. -/
def splitOnPred (p : Char → Bool) : List Char → List (List Char)
  | [] => [[]]
  | c :: cs =>
    let r := splitOnPred p cs
    if p c then [] :: r else (c :: r.headD []) :: r.tail

/-- Python `s.split(sep)` for a single-character separator `sep`. -/
def splitOnChar (sep : Char) (s : List Char) : List (List Char) :=
  splitOnPred (fun c => c == sep) s

/-- Python `s.split()` (no argument): split on runs of whitespace and
drop empty segments. -/
def splitWS (s : List Char) : List (List Char) :=
  (splitOnPred isSpaceChar s).filter (fun w => !w.isEmpty)

/-- Boolean prefix test on character lists. -/
def isPre : List Char → List Char → Bool
  | [], _ => true
  | _ :: _, [] => false
  | a :: as, b :: bs => a == b && isPre as bs

/-- Worker for Python `s.split(sep)` with a multi-character separator
`s0 :: srest`: scans left to right for non-overlapping occurrences.
Structural recursion on a fuel argument; every step consumes at least
one character, so fuel equal to the length of the scanned list is
enough and the zero-fuel branch is unreachable from `splitOnSub`. -/
def splitOnSubF (s0 : Char) (srest : List Char) : Nat → List Char → List (List Char)
  | _, [] => [[]]
  | 0, _ :: _ => [[]]
  | fuel + 1, c :: cs =>
    if isPre (s0 :: srest) (c :: cs) then
      [] :: splitOnSubF s0 srest fuel (cs.drop srest.length)
    else
      let r := splitOnSubF s0 srest fuel cs
      (c :: r.headD []) :: r.tail

/-- Python `s.split(sep)` for a nonempty separator `s0 :: srest`. -/
def splitOnSub (s0 : Char) (srest : List Char) (s : List Char) :
    List (List Char) :=
  splitOnSubF s0 srest s.length s

/-- Python `s.split(sep)` for a string separator; the separators used in
the source (`'presetposno'`, `'users='`) are nonempty. -/
def pySplitSub (sep : List Char) (s : List Char) : List (List Char) :=
  match sep with
  | [] => [s]
  | c :: cs => splitOnSub c cs s

/-- Python `s.rstrip('\r')`: drop every trailing carriage return. -/
def rstripCR (s : List Char) : List Char :=
  (s.reverse.dropWhile (fun c => c == '\r')).reverse

/-- Python `s.strip()` as performed implicitly by `int()` / `float()`. -/
def stripWS (s : List Char) : List Char :=
  ((s.dropWhile isSpaceChar).reverse.dropWhile isSpaceChar).reverse

/-- Python `s.replace(old, '')` for a one-character `old`: remove every
occurrence. -/
def removeChar (c : Char) (s : List Char) : List Char :=
  s.filter (fun x => !(x == c))

/-- Nonempty all-digit check used by the `int()` / `float()` models. -/
def digitsOk (s : List Char) : Bool :=
  !s.isEmpty && s.all Char.isDigit

/-- Numeric value of a digit string, most significant digit first. -/
def digitsVal (s : List Char) : Nat :=
  s.foldl (fun a c => 10 * a + (c.toNat - 48)) 0

/-- Python `int(text)` after the implicit whitespace strip: optional
sign followed by a nonempty digit string (underscore grouping and
non-decimal bases are not exercised by this code base). -/
def pyIntCore (s : List Char) : Except PyErr Int :=
  match s with
  | [] => .error .valueError
  | c :: r =>
    if c = '-' then
      (if digitsOk r then .ok (-(digitsVal r : Int)) else .error .valueError)
    else if c = '+' then
      (if digitsOk r then .ok ((digitsVal r : Int)) else .error .valueError)
    else
      (if digitsOk (c :: r) then .ok ((digitsVal (c :: r) : Int)) else .error .valueError)

/-- Python `int(text)` on a string argument. -/
def pyInt (s : List Char) : Except PyErr Int :=
  pyIntCore (stripWS s)

/-- Python `float(text)` after sign handling: plain decimal notation
`digits[.digits]` with at least one digit (exponents / inf / nan are
not exercised by this code base).  Exact rational value. -/
def pyFloatCore (s : List Char) : Except PyErr Rat :=
  match splitOnChar '.' s with
  | [ip] => if digitsOk ip then .ok ((digitsVal ip : Rat)) else .error .valueError
  | [ip, fp] =>
    if !(ip ++ fp).isEmpty && (ip ++ fp).all Char.isDigit then
      .ok ((digitsVal ip : Rat) + (digitsVal fp : Rat) / (10 : Rat) ^ fp.length)
    else .error .valueError
  | _ => .error .valueError

/-- Python `float(text)` on a string argument. -/
def pyFloat (s : List Char) : Except PyErr Rat :=
  match stripWS s with
  | [] => .error .valueError
  | c :: r =>
    if c = '-' then (pyFloatCore r).map Neg.neg
    else if c = '+' then pyFloatCore r
    else pyFloatCore (c :: r)

/-- Python list indexing `l[i]` for a nonnegative index: `IndexError`
when out of range. -/
def pyIndex {α : Type} (l : List α) (i : Nat) : Except PyErr α :=
  match l.get? i with
  | some x => .ok x
  | none => .error .indexError

/-- Decimal rendering of a natural number, as Python `str` produces. -/
def natToStr (n : Nat) : List Char :=
  if n < 10 then [Char.ofNat (48 + n)]
  else natToStr (n / 10) ++ [Char.ofNat (48 + n % 10)]
decreasing_by
  exact Nat.div_lt_self (by omega) (by omega)

/-- Python `str(n)` for an int. -/
def intToStr (n : Int) : List Char :=
  if n < 0 then '-' :: natToStr n.natAbs else natToStr n.toNat

/-- Python `str(x)` where `x` is an optional int (`None` renders as the
literal text `None`), as used by the string-building PTZ commands. -/
def pyStrOptInt (x : Option Int) : List Char :=
  match x with
  | none => chars "None"
  | some n => intToStr n

/-- Python `str(x)` where `x` is an optional string. -/
def pyStrOptStr (x : Option (List Char)) : List Char :=
  match x with
  | none => chars "None"
  | some s => s

/-
Dictionary model.  Python dicts preserve insertion order and have unique
keys; `d.update(e)` overwrites the value of an existing key in place and
appends new keys in order.  Request-parameter dictionaries are modelled
as association lists with `String` keys.
-/

/-- One step of Python `dict.update`: set key `k` to `v`, replacing in
place when present, appending otherwise. -/
def updateOne {α : Type} (d : List (String × α)) (k : String) (v : α) :
    List (String × α) :=
  if d.any (fun p => p.1 == k) then
    d.map (fun p => if p.1 = k then (k, v) else p)
  else d ++ [(k, v)]

/-- Python `d.update(e)` on the association-list model. -/
def dictUpdate {α : Type} (d e : List (String × α)) : List (String × α) :=
  e.foldl (fun acc p => updateOne acc p.1 p.2) d

/-- CameraControl.__merge_dicts: start from an empty dict and update with
each argument in turn; precedence goes to later dictionaries. -/
def merge_dicts {α : Type} (args : List (List (String × α))) : List (String × α) :=
  args.foldl dictUpdate []

/-- First-match key lookup (Python `d[k]` on the unique-key dicts built
by this code). -/
def dictLookup {α : Type} (k : String) : List (String × α) → Option α
  | [] => none
  | p :: ps => if p.1 = k then some p.2 else dictLookup k ps

/-- The parameter dictionaries handed to `requests.get(params=...)`:
each key maps either to `None` or to a value. -/
abbrev ParamDict := List (String × Option PyVal)

/-- Query-string encoding performed by the `requests` library: a key
whose value is `None` is not added to the query string; other values are
sent. -/
def requestsEncode (d : ParamDict) : List (String × PyVal) :=
  d.filterMap (fun p => p.2.map (fun v => (p.1, v)))

/-- Keys of the encoded (actually sent) query string. -/
def encodeKeys (d : ParamDict) : List String :=
  (requestsEncode d).map Prod.fst

/-
Embedding of sensecam_control/vapix_control.py.
-/

/-- An HTTP response as seen by the client: status code and body text.
(`resp.text`; bodies relevant here are plain text.) -/
structure Resp where
  status : Nat
  text : List Char
deriving DecidableEq, Repr

/-- Result of CameraControl._camera_command: either the response is
returned to the caller, or the process is terminated via sys.exit. -/
inductive CmdOutcome where
  | ret (r : Resp)
  | exit (code : Nat)
deriving DecidableEq, Repr

/-- The fixed base query arguments of _camera_command; `t` is the value
of `int(time.time())` at the moment of the call, i.e. the wall-clock
time in whole seconds. -/
def base_q_args (t : Int) : ParamDict :=
  [("camera", some (.int 1)), ("html", some (.str (chars "no"))),
   ("timestamp", some (.int t))]

/-- The full parameter dictionary `payload2` built by _camera_command:
`__merge_dicts(payload, base_q_args)`. -/
def cameraCommandParams (payload : ParamDict) (t : Int) : ParamDict :=
  merge_dicts [payload, base_q_args t]

/-- The query parameters actually sent on the wire for one
_camera_command call (after the `requests` encoding drops None). -/
def sentParams (payload : ParamDict) (t : Int) : List (String × PyVal) :=
  requestsEncode (cameraCommandParams payload t)

/-- Control flow of _camera_command after the GET returns: statuses
outside {200, 204} are logged, and a 401 additionally calls
`sys.exit(1)`; every other response is returned to the caller. -/
def cameraCommandOutcome (r : Resp) : CmdOutcome :=
  if r.status ≠ 200 ∧ r.status ≠ 204 then
    (if r.status = 401 then .exit 1 else .ret r)
  else .ret r

/-- CameraControl.absolute_move payload. -/
def absolute_move (pan tilt : Option Rat) (zoom speed : Option Int) : ParamDict :=
  [("pan", pan.map .float), ("tilt", tilt.map .float),
   ("zoom", zoom.map .int), ("speed", speed.map .int)]

/-- CameraControl.continuous_move payload: `pan_tilt = str(pan) + "," +
str(tilt)` is always present as a string; the zoom key carries the raw
optional int. -/
def continuous_move (pan tilt zoom : Option Int) : ParamDict :=
  [("continuouspantiltmove",
      some (.str (pyStrOptInt pan ++ chars "," ++ pyStrOptInt tilt))),
   ("continuouszoommove", zoom.map .int)]

/-- CameraControl.relative_move payload. -/
def relative_move (pan tilt : Option Rat) (zoom speed : Option Int) : ParamDict :=
  [("rpan", pan.map .float), ("rtilt", tilt.map .float),
   ("rzoom", zoom.map .int), ("speed", speed.map .int)]

/-- CameraControl.stop_move payload. -/
def stop_move : ParamDict :=
  [("continuouspantiltmove", some (.str (chars "0,0"))),
   ("continuouszoommove", some (.int 0))]

/-- CameraControl.center_move payload: `str(pos_x) + "," + str(pos_y)`. -/
def center_move (pos_x pos_y speed : Option Int) : ParamDict :=
  [("center", some (.str (pyStrOptInt pos_x ++ chars "," ++ pyStrOptInt pos_y))),
   ("speed", speed.map .int)]

/-- CameraControl.area_zoom payload:
`str(pos_x) + "," + str(pos_y) + "," + str(zoom)`. -/
def area_zoom (pos_x pos_y zoom speed : Option Int) : ParamDict :=
  [("areazoom",
      some (.str (pyStrOptInt pos_x ++ chars "," ++ pyStrOptInt pos_y ++
        chars "," ++ pyStrOptInt zoom))),
   ("speed", speed.map .int)]

/-- CameraControl.move payload: `'move': str(position)`. -/
def move (position : Option (List Char)) (speed : Option Rat) : ParamDict :=
  [("move", some (.str (pyStrOptStr position))), ("speed", speed.map .float)]

/-- CameraControl.go_home_position payload. -/
def go_home_position (speed : Option Int) : ParamDict :=
  [("move", some (.str (chars "home"))), ("speed", speed.map .int)]

/-- CameraControl.go_to_server_preset_name payload. -/
def go_to_server_preset_name (name : Option (List Char)) (speed : Option Int) :
    ParamDict :=
  [("gotoserverpresetname", name.map .str), ("speed", speed.map .int)]

/-- CameraControl.go_to_server_preset_no payload. -/
def go_to_server_preset_no (number speed : Option Int) : ParamDict :=
  [("gotoserverpresetno", number.map .int), ("speed", speed.map .int)]

/-- CameraControl.go_to_device_preset payload. -/
def go_to_device_preset (preset_pos speed : Option Int) : ParamDict :=
  [("gotodevicepreset", preset_pos.map .int), ("speed", speed.map .int)]

/-- CameraControl.set_speed payload. -/
def set_speed (speed : Option Int) : ParamDict :=
  [("speed", speed.map .int)]

/-- CameraControl.get_ptz response parsing: for each of the first three
whitespace-separated tokens of the body, take the text after the first
'=' and convert it with float(); raises IndexError / ValueError on a
body of unexpected shape. -/
def get_ptz (text : List Char) : Except PyErr (Rat × Rat × Rat) := do
  let toks := splitWS text
  let t0 ← pyIndex toks 0
  let e0 ← pyIndex (splitOnChar '=' t0) 1
  let pan ← pyFloat e0
  let t1 ← pyIndex toks 1
  let e1 ← pyIndex (splitOnChar '=' t1) 1
  let tilt ← pyFloat e1
  let t2 ← pyIndex toks 2
  let e2 ← pyIndex (splitOnChar '=' t2) 1
  let zoom ← pyFloat e2
  return (pan, tilt, zoom)

/-- Body of the `for i in range(1, len(resp_presets)-1)` loop of
CameraControl.list_all_preset, run over the selected lines in order:
split the line on '=', take the numeric suffix of the key after
'presetposno', convert with int(), and pair it with the value stripped
of trailing '\r'.  Evaluation order matches the Python tuple
expression. -/
def presetLoop : List (List Char) → Except PyErr (List (Int × List Char))
  | [] => .ok []
  | line :: rest => do
    let preset := splitOnChar '=' line
    let key ← pyIndex preset 0
    let sfx ← pyIndex (pySplitSub (chars "presetposno") key) 1
    let n ← pyInt sfx
    let value ← pyIndex preset 1
    let tail ← presetLoop rest
    return (n, rstripCR value) :: tail

/-- CameraControl.list_all_preset response parsing: the body (plain text,
on which BeautifulSoup's .text is the identity) is split on newlines and
only indices 1 .. len-2 are parsed — the first line and the final
segment are skipped. -/
def list_all_preset (text : List Char) : Except PyErr (List (Int × List Char)) :=
  let resp_presets := splitOnChar '\n' text
  presetLoop ((resp_presets.drop 1).take (resp_presets.length - 2))

/-- The connection parameters stored by CameraControl.__init__. -/
structure CameraControl where
  cam_ip : String
  cam_user : String
  cam_password : String
deriving DecidableEq, Repr

/-- The authenticated GET issued by _camera_command: fixed endpoint
under the stored address, digest credentials from the stored pair, and
the encoded merged parameters. -/
structure HttpReq where
  url : String
  auth_user : String
  auth_password : String
  params : List (String × PyVal)
deriving DecidableEq, Repr

/-- The request _camera_command sends for a given payload at clock
second `t`. -/
def camera_command_request (c : CameraControl) (payload : ParamDict) (t : Int) :
    HttpReq :=
  { url := "http://" ++ c.cam_ip ++ "/axis-cgi/com/ptz.cgi"
    auth_user := c.cam_user
    auth_password := c.cam_password
    params := sentParams payload t }

/-- The public operations of CameraControl, with their arguments. -/
inductive PtzOp where
  | absoluteMove (pan tilt : Option Rat) (zoom speed : Option Int)
  | continuousMove (pan tilt zoom : Option Int)
  | relativeMove (pan tilt : Option Rat) (zoom speed : Option Int)
  | stopMove
  | centerMove (pos_x pos_y speed : Option Int)
  | areaZoom (pos_x pos_y zoom speed : Option Int)
  | moveOp (position : Option (List Char)) (speed : Option Rat)
  | goHomePosition (speed : Option Int)
  | getPtz
  | goToServerPresetName (name : Option (List Char)) (speed : Option Int)
  | goToServerPresetNo (number speed : Option Int)
  | goToDevicePreset (preset_pos speed : Option Int)
  | listPresetDevice
  | listAllPreset
  | setSpeed (speed : Option Int)
  | getSpeed
  | infoPtzComands

/-- The payload each CameraControl operation passes to _camera_command. -/
def opPayload : PtzOp → ParamDict
  | .absoluteMove p ti z s => absolute_move p ti z s
  | .continuousMove p ti z => continuous_move p ti z
  | .relativeMove p ti z s => relative_move p ti z s
  | .stopMove => stop_move
  | .centerMove x y s => center_move x y s
  | .areaZoom x y z s => area_zoom x y z s
  | .moveOp pos s => move pos s
  | .goHomePosition s => go_home_position s
  | .getPtz => [("query", some (.str (chars "position")))]
  | .goToServerPresetName n s => go_to_server_preset_name n s
  | .goToServerPresetNo n s => go_to_server_preset_no n s
  | .goToDevicePreset n s => go_to_device_preset n s
  | .listPresetDevice => [("query", some (.str (chars "presetposcam")))]
  | .listAllPreset => [("query", some (.str (chars "presetposall")))]
  | .setSpeed s => set_speed s
  | .getSpeed => [("query", some (.str (chars "speed")))]
  | .infoPtzComands => [("info", some (.str (chars "1")))]

/-- State-passing form of one CameraControl method call: the stored
connection parameters in, the (possibly updated) parameters and the
issued request out.  No method of the class assigns to self, so the
returned state is the input state. -/
def runOp (c : CameraControl) (op : PtzOp) (t : Int) : CameraControl × HttpReq :=
  (c, camera_command_request c (opPayload op) t)

/-
Embedding of sensecam_control/vapix_config.py (the parts C6 needs).
-/

/-- Inner scan of CameraConfiguration.check_user over one line of the
pwdgrp.cgi `action=get` response: split the line on the substring
'users='; when that yields more than one part, strip '"' and '\r' from
the second part, split it on ',', and report success when any chunk
equals the name. -/
def checkUserLine (line nm : List Char) : Bool :=
  let text3 := pySplitSub (chars "users=") line
  if text3.length > 1 then
    let text4 := splitOnChar ','
      (removeChar '\r' (removeChar '"' ((text3.get? 1).getD [])))
    text4.any (fun x => x == nm)
  else false

/-- Line loop of check_user: returns 1 on the first line whose user list
contains the name, and 0 after scanning every line without a match. -/
def checkUserLoop (lines : List (List Char)) (nm : List Char) : Int :=
  match lines with
  | [] => 0
  | line :: rest => if checkUserLine line nm then 1 else checkUserLoop rest nm

/-- CameraConfiguration.check_user given the device's response to the
pwdgrp.cgi `action=get` query: on status 200 it scans the body lines and
returns the int 1 or 0.  On any other status the code evaluates
`soup.resp_text()`; BeautifulSoup resolves the unknown attribute
`resp_text` to a tag search yielding None, and calling it raises a
TypeError, which the model records as an error. -/
def check_user (resp : Resp) (nm : List Char) : Except PyErr Int :=
  if resp.status = 200 then .ok (checkUserLoop (splitOnChar '\n' resp.text) nm)
  else .error .typeError

/-- Security-group expansion performed by create_user before building
the payload. -/
def sgroupExpand (sgroup : List Char) : List Char :=
  if sgroup = chars "admin" then chars "admin:operator:viewer:ptz"
  else if sgroup = chars "operator" then chars "operator:viewer:ptz"
  else if sgroup = chars "ptz" then chars "viewer:ptz"
  else sgroup

/-- Result of CameraConfiguration.create_user up to the point where the
pwdgrp.cgi `action=add` request would be issued: the check-then-act
sequence either propagates an exception from check_user, returns the
"already exists" string without sending anything, or proceeds to send
the add request with the given payload. -/
inductive CreateUserResult where
  | raises (e : PyErr)
  | earlyReturn (msg : List Char)
  | sendsAdd (payload : ParamDict)
deriving DecidableEq, Repr

/-- CameraConfiguration.create_user, with `checkResp` the device's
response to the check_user query it performs first.  Python truthiness
of the int result of check_user gates the early return. -/
def create_user (checkResp : Resp) (user password sgroup group : List Char)
    (comment : Option (List Char)) : CreateUserResult :=
  match check_user checkResp user with
  | .error e => .raises e
  | .ok v =>
    if v ≠ 0 then .earlyReturn (user ++ chars " already exists.")
    else .sendsAdd
      [("action", some (.str (chars "add"))),
       ("user", some (.str user)),
       ("pwd", some (.str password)),
       ("grp", some (.str group)),
       ("sgrp", some (.str (sgroupExpand sgroup))),
       ("comment", comment.map .str)]

/-
Embedding of sensecam_control/onvif_control.py (the two static range
maps).  Python floats are modelled over the rationals, as announced by
the claim ("over exact rational arithmetic").
-/

/-- CameraControl._map_onvif_to_vapix. -/
def _map_onvif_to_vapix (value min_onvif max_onvif min_vapix max_vapix : Rat) : Rat :=
  (value - min_onvif) * (max_vapix - min_vapix) / (max_onvif - min_onvif) + min_vapix

/-- CameraControl._map_vapix_to_onvif. -/
def _map_vapix_to_onvif (value min_vapix max_vapix min_onvif max_onvif : Rat) : Rat :=
  (value - min_vapix) * (max_onvif - min_onvif) / (max_vapix - min_vapix) + min_onvif

/-
Spec-side reference definitions for claim C2 (amended form): the body a
device reports for `query=presetposall`, built from a header line and a
list of `presetposno<digits>=<name>` entry lines, each terminated by
CR LF.
-/

/-- One `presetposno<digits>=<name>` line including its trailing CR. -/
def presetLine (ds nm : List Char) : List Char :=
  chars "presetposno" ++ ds ++ '=' :: nm ++ ['\r']

/-- The entry lines of a preset-list body, each followed by LF. -/
def presetBody (entries : List (List Char × List Char)) : List Char :=
  entries.foldr (fun e acc => presetLine e.1 e.2 ++ '\n' :: acc) []

/-
Shared helper lemmas.
-/

theorem isDigit_ne {c d : Char} (h : c.isDigit = true) (hd : d.isDigit = false) :
    c ≠ d := by
  intro he
  rw [he, hd] at h
  exact Bool.noConfusion h

theorem dropWhile_of_none {p : Char → Bool} {s : List Char}
    (h : ∀ c ∈ s, p c = false) : s.dropWhile p = s := by
  induction s with
  | nil => rfl
  | cons c cs ih =>
    rw [List.dropWhile_cons, h c (List.mem_cons_self c cs)]
    simp [ih (fun x hx => h x (List.mem_cons_of_mem c hx))]

theorem stripWS_of_none {s : List Char}
    (h : ∀ c ∈ s, isSpaceChar c = false) : stripWS s = s := by
  unfold stripWS
  rw [dropWhile_of_none h]
  rw [dropWhile_of_none (fun c hc => h c (List.mem_reverse.mp hc))]
  exact List.reverse_reverse s

theorem splitOnPred_ne_nil (p : Char → Bool) (s : List Char) :
    splitOnPred p s ≠ [] := by
  cases s with
  | nil => simp [splitOnPred]
  | cons c cs =>
    unfold splitOnPred
    by_cases h : p c <;> simp [h]

theorem splitOnPred_cons_pos {p : Char → Bool} {x : Char} (s : List Char)
    (h : p x = true) : splitOnPred p (x :: s) = [] :: splitOnPred p s := by
  simp [splitOnPred, h]

theorem splitOnPred_cons_neg {p : Char → Bool} {x : Char} (s : List Char)
    (h : p x = false) :
    splitOnPred p (x :: s) =
      (x :: (splitOnPred p s).headD []) :: (splitOnPred p s).tail := by
  simp [splitOnPred, h]

theorem splitOnPred_append_sep {p : Char → Bool} {a : List Char} (sep : Char)
    (b : List Char) (h : ∀ c ∈ a, p c = false) (hsep : p sep = true) :
    splitOnPred p (a ++ sep :: b) = a :: splitOnPred p b := by
  induction a with
  | nil => simp [splitOnPred_cons_pos _ hsep]
  | cons x xs ih =>
    have hx : p x = false := h x (List.mem_cons_self x xs)
    have ih2 := ih (fun c hc => h c (List.mem_cons_of_mem x hc))
    rw [List.cons_append, splitOnPred_cons_neg _ hx, ih2]
    simp

theorem splitOnPred_of_none {p : Char → Bool} {a : List Char}
    (h : ∀ c ∈ a, p c = false) : splitOnPred p a = [a] := by
  induction a with
  | nil => rfl
  | cons x xs ih =>
    have hx : p x = false := h x (List.mem_cons_self x xs)
    have ih2 := ih (fun c hc => h c (List.mem_cons_of_mem x hc))
    rw [splitOnPred_cons_neg _ hx, ih2]
    simp

theorem isPre_append_self (s t : List Char) : isPre s (s ++ t) = true := by
  induction s with
  | nil => rfl
  | cons c cs ih => simp [isPre, ih]

theorem splitOnSubF_of_none {s0 : Char} {srest : List Char} (ds : List Char)
    (fuel : Nat) (h : ∀ c ∈ ds, c ≠ s0) (hf : ds.length ≤ fuel) :
    splitOnSubF s0 srest fuel ds = [ds] := by
  induction ds generalizing fuel with
  | nil => cases fuel <;> rfl
  | cons c cs ih =>
    cases fuel with
    | zero => simp at hf
    | succ f =>
      have hc : (s0 == c) = false := by
        simp only [beq_eq_false_iff_ne, ne_eq]
        exact fun he => h c (List.mem_cons_self c cs) he.symm
      have ih2 := ih f (fun x hx => h x (List.mem_cons_of_mem c hx))
        (by simp at hf; omega)
      rw [splitOnSubF]
      rw [show isPre (s0 :: srest) (c :: cs) = false by simp [isPre, hc]]
      simp [ih2]

theorem splitOnSub_of_none {s0 : Char} {srest ds : List Char}
    (h : ∀ c ∈ ds, c ≠ s0) : splitOnSub s0 srest ds = [ds] :=
  splitOnSubF_of_none ds ds.length h le_rfl

theorem splitOnSub_self_append {s0 : Char} {srest ds : List Char}
    (h : ∀ c ∈ ds, c ≠ s0) :
    splitOnSub s0 srest ((s0 :: srest) ++ ds) = [[], ds] := by
  have h1 : isPre (s0 :: srest) ((s0 :: srest) ++ ds) = true :=
    isPre_append_self _ _
  unfold splitOnSub
  have hlen : ((s0 :: srest) ++ ds).length = srest.length + ds.length + 1 := by
    simp [List.length_append]
  rw [hlen]
  rw [List.cons_append, splitOnSubF]
  rw [List.cons_append] at h1
  rw [h1]
  simp only [if_true]
  rw [show (srest ++ ds).drop srest.length = ds from List.drop_left srest ds]
  rw [splitOnSubF_of_none ds (srest.length + ds.length) h (by omega)]

theorem pyInt_digits {ds : List Char} (hne : ds ≠ [])
    (hd : ∀ c ∈ ds, c.isDigit = true) : pyInt ds = .ok ((digitsVal ds : Int)) := by
  have hsp : ∀ c ∈ ds, isSpaceChar c = false := by
    intro c hc
    have h1 := hd c hc
    simp only [isSpaceChar, Bool.or_eq_false_iff, beq_eq_false_iff_ne, ne_eq]
    refine ⟨⟨⟨⟨⟨?_, ?_⟩, ?_⟩, ?_⟩, ?_⟩, ?_⟩ <;>
      exact isDigit_ne h1 (by decide)
  unfold pyInt
  rw [stripWS_of_none hsp]
  cases ds with
  | nil => exact absurd rfl hne
  | cons c cs =>
    have hc : c.isDigit = true := hd c (List.mem_cons_self c cs)
    have h2 : c ≠ '-' := isDigit_ne hc (by decide)
    have h3 : c ≠ '+' := isDigit_ne hc (by decide)
    have h4 : digitsOk (c :: cs) = true := by
      simp only [digitsOk, List.isEmpty_cons, Bool.not_false, Bool.true_and,
        List.all_eq_true]
      intro x hx
      exact hd x hx
    simp [pyIntCore, h2, h3, h4]

theorem rstripCR_append {nm : List Char} (h : '\r' ∉ nm) :
    rstripCR (nm ++ ['\r']) = nm := by
  unfold rstripCR
  rw [List.reverse_append]
  simp only [List.reverse_cons, List.reverse_nil, List.nil_append,
    List.singleton_append]
  rw [List.dropWhile_cons]
  simp only [beq_self_eq_true, if_true]
  rw [dropWhile_of_none (fun c hc => by
    simp only [beq_eq_false_iff_ne, ne_eq]
    exact fun he => h (he ▸ List.mem_reverse.mp hc))]
  exact List.reverse_reverse nm

/-
Dictionary lemmas.
-/

theorem dictLookup_append {α : Type} (k : String) (d e : List (String × α)) :
    dictLookup k (d ++ e) =
      match dictLookup k d with
      | some v => some v
      | none => dictLookup k e := by
  induction d with
  | nil => simp [dictLookup]
  | cons p tl ih =>
    rw [List.cons_append]
    by_cases h : p.1 = k
    · simp [dictLookup, h]
    · simp [dictLookup, h, ih]

theorem dictLookup_map_ne {α : Type} {k q : String} (v : α)
    (d : List (String × α)) (h : k ≠ q) :
    dictLookup k (d.map (fun p => if p.1 = q then (q, v) else p)) =
      dictLookup k d := by
  induction d with
  | nil => rfl
  | cons p tl ih =>
    rw [List.map_cons]
    by_cases hp : p.1 = q
    · rw [if_pos hp]
      simp only [dictLookup]
      rw [if_neg (fun he => h he.symm), if_neg (fun he => h ((he.symm.trans hp)))]
      exact ih
    · rw [if_neg hp]
      simp only [dictLookup]
      by_cases hk : p.1 = k
      · rw [if_pos hk, if_pos hk]
      · rw [if_neg hk, if_neg hk]
        exact ih

theorem dictLookup_map_eq {α : Type} {q : String} (v : α)
    {d : List (String × α)} (h : d.any (fun p => p.1 == q) = true) :
    dictLookup q (d.map (fun p => if p.1 = q then (q, v) else p)) = some v := by
  induction d with
  | nil => simp at h
  | cons p tl ih =>
    rw [List.map_cons]
    by_cases hp : p.1 = q
    · rw [if_pos hp]
      simp [dictLookup]
    · rw [if_neg hp]
      have h2 : tl.any (fun p => p.1 == q) = true := by
        rcases List.any_eq_true.mp h with ⟨x, hx, hxq⟩
        rcases List.mem_cons.mp hx with rfl | hxtl
        · exact absurd (by simpa using hxq) hp
        · exact List.any_eq_true.mpr ⟨x, hxtl, hxq⟩
      simp only [dictLookup]
      rw [if_neg hp]
      exact ih h2

theorem dictLookup_of_not_contains {α : Type} {k : String}
    {d : List (String × α)} (h : d.any (fun p => p.1 == k) = false) :
    dictLookup k d = none := by
  induction d with
  | nil => rfl
  | cons p tl ih =>
    simp only [List.any_cons, Bool.or_eq_false_iff] at h
    have h1 : p.1 ≠ k := by simpa using h.1
    simp only [dictLookup]
    rw [if_neg h1]
    exact ih h.2

theorem dictLookup_updateOne {α : Type} (d : List (String × α)) (k q : String)
    (v : α) :
    dictLookup k (updateOne d q v) = if k = q then some v else dictLookup k d := by
  unfold updateOne
  by_cases hc : d.any (fun p => p.1 == q) = true
  · rw [if_pos hc]
    by_cases hkq : k = q
    · subst hkq
      rw [if_pos rfl, dictLookup_map_eq v hc]
    · rw [if_neg hkq, dictLookup_map_ne v d hkq]
  · rw [if_neg (by simpa using hc)]
    rw [dictLookup_append]
    by_cases hkq : k = q
    · subst hkq
      rw [dictLookup_of_not_contains (Bool.eq_false_iff.mpr hc)]
      simp [dictLookup]
    · rw [if_neg hkq]
      have hq : q ≠ k := fun he => hkq he.symm
      cases hdk : dictLookup k d
      · simp [dictLookup, hq]
      · simp

theorem updateOne_not_contains {α : Type} {d : List (String × α)} {k : String}
    (v : α) (h : d.any (fun p => p.1 == k) = false) :
    updateOne d k v = d ++ [(k, v)] := by
  unfold updateOne
  rw [h]
  simp

theorem dictUpdate_of_disjoint {α : Type} (e : List (String × α)) :
    ∀ acc : List (String × α), (e.map Prod.fst).Nodup →
      (∀ p ∈ e, acc.any (fun q => q.1 == p.1) = false) →
      dictUpdate acc e = acc ++ e := by
  induction e with
  | nil => intro acc _ _; simp [dictUpdate]
  | cons kv tl ih =>
    intro acc hnd hdisj
    have h1 : acc.any (fun q => q.1 == kv.1) = false :=
      hdisj kv (List.mem_cons_self kv tl)
    have hstep : dictUpdate acc (kv :: tl) = dictUpdate (acc ++ [(kv.1, kv.2)]) tl := by
      unfold dictUpdate
      rw [List.foldl_cons, updateOne_not_contains kv.2 h1]
    rw [hstep]
    rw [List.map_cons] at hnd
    have hnd0 := List.nodup_cons.mp hnd
    have hdisj' : ∀ p ∈ tl, (acc ++ [(kv.1, kv.2)]).any (fun q => q.1 == p.1) = false := by
      intro p hp
      simp only [List.any_append, List.any_cons, List.any_nil,
        Bool.or_eq_false_iff]
      refine ⟨hdisj p (List.mem_cons_of_mem kv hp), ?_, trivial⟩
      simp only [beq_eq_false_iff_ne, ne_eq]
      intro he
      exact hnd0.1 (he ▸ List.mem_map_of_mem Prod.fst hp)
    rw [ih (acc ++ [(kv.1, kv.2)]) hnd0.2 hdisj']
    simp

theorem dictUpdate_nil {α : Type} (e : List (String × α))
    (hnd : (e.map Prod.fst).Nodup) : dictUpdate [] e = e := by
  rw [dictUpdate_of_disjoint e [] hnd (fun p _ => rfl)]
  simp

/-
Claim theorems.
-/

/-- C4: get_ptz parses the body "pan=12.5 tilt=-3.0 zoom=1000\r\n" to
the triple (12.5, -3.0, 1000.0), and it parses positionally: the value
of the first, second and third whitespace-separated token (text after
the first '=') lands in the pan, tilt and zoom slot respectively,
regardless of the key labels, as the second, label-permuted body
shows. -/
theorem c4_get_ptz_positional :
    get_ptz (chars "pan=12.5 tilt=-3.0 zoom=1000\r\n") =
      .ok ((25 : Rat)/2, (-3 : Rat), (1000 : Rat)) ∧
    get_ptz (chars "tilt=7 zoom=8 pan=9\r\n") =
      .ok ((7 : Rat), (8 : Rat), (9 : Rat)) := by
  constructor <;>
    · simp [get_ptz, chars, splitWS, splitOnPred, isSpaceChar, splitOnChar,
        pyIndex, pyFloat, pyFloatCore, stripWS, digitsOk, digitsVal, bind,
        Except.bind, pure, Except.pure, Except.map]
      try norm_num

/-- C5: stop_move always passes exactly the two-key payload
continuouspantiltmove="0,0", continuouszoommove=0 (it takes no
arguments and reads no state), and for every call time the request sent
on the wire carries exactly those two keys plus the fixed base
parameters; no other stop verb appears. -/
theorem c5_stop_move_zero_velocity :
    stop_move = [("continuouspantiltmove", some (PyVal.str (chars "0,0"))),
      ("continuouszoommove", some (PyVal.int 0))] ∧
    ∀ t : Int, sentParams stop_move t =
      [("continuouspantiltmove", PyVal.str (chars "0,0")),
       ("continuouszoommove", PyVal.int 0),
       ("camera", PyVal.int 1),
       ("html", PyVal.str (chars "no")),
       ("timestamp", PyVal.int t)] :=
  ⟨rfl, fun _ => rfl⟩

/-- C2 counterexample: on the two-line body
"presetposno1=Entrance\r\npresetposno5=Dock\r\n" the code returns only
[(5, "Dock")]: the loop starts at index 1 of the newline-split body, so
the first line (presetposno1=Entrance) is skipped, refuting the claimed
result [(1, "Entrance"), (5, "Dock")]. -/
theorem c2_list_all_preset_skips_first_line :
    list_all_preset (chars "presetposno1=Entrance\r\npresetposno5=Dock\r\n") =
      .ok [((5 : Int), chars "Dock")] ∧
    list_all_preset (chars "presetposno1=Entrance\r\npresetposno5=Dock\r\n") ≠
      .ok [((1 : Int), chars "Entrance"), ((5 : Int), chars "Dock")] := by
  constructor
  · rfl
  · decide

/-- C8 counterexample: on bodies without the expected key=value shape,
get_ptz and list_all_preset fail with the IndexError of positional
indexing (PyErr has no "unexpected response shape" error at all — the
code defines none), refuting the claim that a distinct shape error is
raised instead of an index/format error. -/
theorem c8_parse_failures_are_index_errors :
    get_ptz (chars "garbage\r\n") = .error .indexError ∧
    list_all_preset (chars "foo\r\nbar\r\n") = .error .indexError := by
  constructor <;> rfl

/-- C8 amended: a malformed status body makes get_ptz raise IndexError
(no '=' in a token) or ValueError (non-numeric value), and a malformed
preset-list body makes list_all_preset raise IndexError; there is no
distinct "unexpected response shape" error anywhere in the code. -/
theorem c8_amended_unrelated_errors :
    get_ptz (chars "garbage\r\n") = .error .indexError ∧
    get_ptz (chars "pan=x tilt=2 zoom=3\r\n") = .error .valueError ∧
    list_all_preset (chars "foo\r\nbar\r\n") = .error .indexError ∧
    list_all_preset (chars "hdr\r\npresetposnoX=Y\r\n") = .error .valueError := by
  refine ⟨rfl, rfl, rfl, rfl⟩

/-- C3 counterexample: a 401 response makes _camera_command call
sys.exit(1) — the call terminates the process instead of returning an
authentication-error result to the caller. -/
theorem c3_401_exits_process :
    cameraCommandOutcome ⟨401, chars "Unauthorized"⟩ = .exit 1 ∧
    cameraCommandOutcome ⟨401, chars "Unauthorized"⟩ ≠
      .ret ⟨401, chars "Unauthorized"⟩ := by
  constructor
  · rfl
  · decide

/-- C3 amended: for every response, status 401 terminates the process
with exit code 1 (after logging), and every other status — success or
not — returns the response to the caller. -/
theorem c3_amended_exit_iff_401 :
    ∀ r : Resp, cameraCommandOutcome r =
      if r.status = 401 then .exit 1 else .ret r := by
  intro r
  unfold cameraCommandOutcome
  by_cases h : r.status = 401
  · simp [h]
  · by_cases h2 : r.status ≠ 200 ∧ r.status ≠ 204
    · simp [h2, h]
    · simp [h2, h]

/-- C1 counterexample: continuous_move stringifies its pan/tilt
arguments before the request is built, so with pan and tilt unsupplied
the key continuouspantiltmove is still sent, carrying the literal text
"None,None" — an unsupplied parameter reaches the wire as a 'None'
value, refuting the claim for every-subset/every-operation. -/
theorem c1_none_reaches_wire :
    dictLookup "continuouspantiltmove"
      (sentParams (continuous_move none none none) 0) =
      some (PyVal.str (chars "None,None")) ∧
    dictLookup "continuouspantiltmove"
      (sentParams (continuous_move none none (some 1)) 0) =
      some (PyVal.str (chars "None,None")) := by
  constructor <;> rfl

/-- C1 amended: operations whose payload passes arguments directly
(absolute_move, relative_move, the three go-to-preset forms, set_speed,
and the zoom/speed arguments elsewhere) omit every unsupplied parameter,
because the requests encoding drops None-valued keys; but
continuous_move, center_move, area_zoom and move embed their positional
arguments into a Python-built string first, so their concatenated key is
always sent, with unsupplied arguments appearing as the text 'None'
inside the value. -/
theorem c1_amended_sent_keys :
    (∀ (p t : Option Rat) (z s : Option Int),
      encodeKeys (absolute_move p t z s) =
        (if p.isSome then ["pan"] else []) ++ (if t.isSome then ["tilt"] else []) ++
        (if z.isSome then ["zoom"] else []) ++ (if s.isSome then ["speed"] else [])) ∧
    (∀ (p t : Option Rat) (z s : Option Int),
      encodeKeys (relative_move p t z s) =
        (if p.isSome then ["rpan"] else []) ++ (if t.isSome then ["rtilt"] else []) ++
        (if z.isSome then ["rzoom"] else []) ++ (if s.isSome then ["speed"] else [])) ∧
    (∀ (n : Option (List Char)) (s : Option Int),
      encodeKeys (go_to_server_preset_name n s) =
        (if n.isSome then ["gotoserverpresetname"] else []) ++
        (if s.isSome then ["speed"] else [])) ∧
    (∀ (n s : Option Int),
      encodeKeys (go_to_server_preset_no n s) =
        (if n.isSome then ["gotoserverpresetno"] else []) ++
        (if s.isSome then ["speed"] else [])) ∧
    (∀ (n s : Option Int),
      encodeKeys (go_to_device_preset n s) =
        (if n.isSome then ["gotodevicepreset"] else []) ++
        (if s.isSome then ["speed"] else [])) ∧
    (∀ s : Option Int,
      encodeKeys (set_speed s) = if s.isSome then ["speed"] else []) ∧
    (∀ p t z : Option Int,
      encodeKeys (continuous_move p t z) =
        "continuouspantiltmove" :: (if z.isSome then ["continuouszoommove"] else [])) ∧
    (∀ x y s : Option Int,
      encodeKeys (center_move x y s) =
        "center" :: (if s.isSome then ["speed"] else [])) ∧
    (∀ x y z s : Option Int,
      encodeKeys (area_zoom x y z s) =
        "areazoom" :: (if s.isSome then ["speed"] else [])) ∧
    (∀ (pos : Option (List Char)) (s : Option Rat),
      encodeKeys (move pos s) = "move" :: (if s.isSome then ["speed"] else [])) := by
  refine ⟨?_, ?_, ?_, ?_, ?_, ?_, ?_, ?_, ?_, ?_⟩
  · intro p t z s; cases p <;> cases t <;> cases z <;> cases s <;> rfl
  · intro p t z s; cases p <;> cases t <;> cases z <;> cases s <;> rfl
  · intro n s; cases n <;> cases s <;> rfl
  · intro n s; cases n <;> cases s <;> rfl
  · intro n s; cases n <;> cases s <;> rfl
  · intro s; cases s <;> rfl
  · intro p t z; cases p <;> cases t <;> cases z <;> rfl
  · intro x y s; cases x <;> cases y <;> cases s <;> rfl
  · intro x y z s; cases x <;> cases y <;> cases z <;> cases s <;> rfl
  · intro pos s; cases pos <;> cases s <;> rfl

/-- C9: every CameraControl operation, in state-passing form, leaves the
stored connection triple (address, user, password) unchanged, and the
request it issues reads exactly those stored values for endpoint and
digest credentials; no other client-side state exists in the model
because the class stores nothing else. -/
theorem c9_connection_params_immutable :
    ∀ (c : CameraControl) (op : PtzOp) (t : Int),
      (runOp c op t).1 = c ∧
      (runOp c op t).2.url = "http://" ++ c.cam_ip ++ "/axis-cgi/com/ptz.cgi" ∧
      (runOp c op t).2.auth_user = c.cam_user ∧
      (runOp c op t).2.auth_password = c.cam_password := by
  intro c op t
  exact ⟨rfl, rfl, rfl, rfl⟩

/-- C10: over exact rational arithmetic, for non-degenerate ranges the
two static range maps of onvif_control.CameraControl are mutually
inverse: mapping a value ONVIF→VAPIX and back (and VAPIX→ONVIF and
back) returns the original value. -/
theorem c10_range_maps_mutually_inverse :
    ∀ (v min_onvif max_onvif min_vapix max_vapix : Rat),
      min_onvif < max_onvif → min_vapix < max_vapix →
      _map_vapix_to_onvif
          (_map_onvif_to_vapix v min_onvif max_onvif min_vapix max_vapix)
          min_vapix max_vapix min_onvif max_onvif = v ∧
      _map_onvif_to_vapix
          (_map_vapix_to_onvif v min_vapix max_vapix min_onvif max_onvif)
          min_onvif max_onvif min_vapix max_vapix = v := by
  intro v a b c d h1 h2
  have hb : b - a ≠ 0 := ne_of_gt (sub_pos.mpr h1)
  have hd : d - c ≠ 0 := ne_of_gt (sub_pos.mpr h2)
  unfold _map_onvif_to_vapix _map_vapix_to_onvif
  constructor <;> (field_simp; ring)

/-- C10 witness: the round trips evaluated at value 1/2 between the
ONVIF range [-1, 1] and the VAPIX range [-180, 180]. -/
theorem c10_witness :
    _map_vapix_to_onvif (_map_onvif_to_vapix ((1 : Rat)/2) (-1) 1 (-180) 180)
      (-180) 180 (-1) 1 = (1 : Rat)/2 ∧
    _map_onvif_to_vapix (_map_vapix_to_onvif ((1 : Rat)/2) (-180) 180 (-1) 1)
      (-1) 1 (-180) 180 = (1 : Rat)/2 :=
  c10_range_maps_mutually_inverse ((1 : Rat)/2) (-1) 1 (-180) 180
    (by norm_num) (by norm_num)

/-- C6: whenever the preceding user-list query reports the name as
present (check_user returns 1), create_user returns the "already
exists" message and never reaches the point where the pwdgrp add
request is built and sent. -/
theorem c6_create_user_refuses_existing :
    ∀ (resp : Resp) (user password sgroup group : List Char)
      (comment : Option (List Char)),
      check_user resp user = .ok 1 →
      create_user resp user password sgroup group comment =
        .earlyReturn (user ++ chars " already exists.") := by
  intro resp u pw sg g cm h
  simp [create_user, h]

/-- C6 witness: a device user list containing alice makes
create_user for alice return the already-exists message. -/
theorem c6_witness :
    create_user ⟨200, chars "users=\"root,alice\"\r\n"⟩ (chars "alice")
      (chars "pw") (chars "operator") (chars "users") none =
      .earlyReturn (chars "alice already exists.") :=
  c6_create_user_refuses_existing ⟨200, chars "users=\"root,alice\"\r\n"⟩
    (chars "alice") (chars "pw") (chars "operator") (chars "users") none
    (by rfl)

/-- C7 counterexample: the timestamp base parameter is int(time.time()),
the wall-clock second of the call; two successive distinct commands
issued within the same second (here a position query followed by a stop
command, both at second 1700000000) carry identical timestamp
parameters, so the timestamp is not monotonically increasing across
successive calls and does not separate repeated commands for caches. -/
theorem c7_same_second_timestamps_collide :
    dictLookup "timestamp"
      (cameraCommandParams [("query", some (PyVal.str (chars "position")))]
        1700000000) = some (some (PyVal.int 1700000000)) ∧
    dictLookup "timestamp" (cameraCommandParams stop_move 1700000000) =
      some (some (PyVal.int 1700000000)) := by
  constructor <;> rfl

/-- C7 amended: the parameter dictionary sent by _camera_command is the
caller's payload merged with exactly the three fixed base parameters
camera=1, html=no and timestamp=the wall-clock second of the call (base
values taking precedence on key collision, all other payload entries
unchanged), and a successful response (status 200 or 204) is returned
raw to the caller; the timestamp equals the current second, hence is
not strictly increasing across calls within one second. -/
theorem c7_amended_merge_exact :
    (∀ (payload : ParamDict) (t : Int) (k : String),
      (payload.map Prod.fst).Nodup →
      dictLookup k (cameraCommandParams payload t) =
        if k = "camera" then some (some (PyVal.int 1))
        else if k = "html" then some (some (PyVal.str (chars "no")))
        else if k = "timestamp" then some (some (PyVal.int t))
        else dictLookup k payload) ∧
    (∀ r : Resp, r.status = 200 ∨ r.status = 204 →
      cameraCommandOutcome r = .ret r) := by
  constructor
  · intro payload t k hnd
    have h0 : cameraCommandParams payload t =
        updateOne (updateOne (updateOne payload "camera" (some (PyVal.int 1)))
          "html" (some (PyVal.str (chars "no"))))
          "timestamp" (some (PyVal.int t)) := by
      show merge_dicts [payload, base_q_args t] = _
      unfold merge_dicts
      rw [List.foldl_cons, List.foldl_cons, List.foldl_nil]
      rw [dictUpdate_nil payload hnd]
      rfl
    rw [h0, dictLookup_updateOne, dictLookup_updateOne, dictLookup_updateOne]
    by_cases h1 : k = "camera"
    · subst h1
      rw [if_neg (by decide : ¬("camera" : String) = "timestamp"),
        if_neg (by decide : ¬("camera" : String) = "html"), if_pos rfl,
        if_pos rfl]
    · by_cases h2 : k = "html"
      · subst h2
        rw [if_neg (by decide : ¬("html" : String) = "timestamp"), if_pos rfl,
          if_neg (by decide : ¬("html" : String) = "camera"), if_pos rfl]
      · by_cases h3 : k = "timestamp"
        · subst h3
          rw [if_pos rfl,
            if_neg (by decide : ¬("timestamp" : String) = "camera"),
            if_neg (by decide : ¬("timestamp" : String) = "html"), if_pos rfl]
        · rw [if_neg h3, if_neg h2, if_neg h1, if_neg h1, if_neg h2, if_neg h3]
  · intro r hr
    rcases hr with h | h <;> simp [cameraCommandOutcome, h]

/-- C7 witness: the merge characterisation evaluated for a concrete
position-query payload at second 7, and the raw return of a 200
response. -/
theorem c7_witness :
    dictLookup "timestamp"
      (cameraCommandParams [("query", some (PyVal.str (chars "position")))] 7) =
      some (some (PyVal.int 7)) ∧
    cameraCommandOutcome ⟨200, chars "ok"⟩ = .ret ⟨200, chars "ok"⟩ :=
  ⟨by
    rw [c7_amended_merge_exact.1 [("query", some (PyVal.str (chars "position")))]
      7 "timestamp" (by decide)]
    rfl,
   c7_amended_merge_exact.2 ⟨200, chars "ok"⟩ (Or.inl rfl)⟩

/-
Supporting lemmas for the amended form of C2.
-/

theorem presetLine_chars {ds nm : List Char} {bad : Char}
    (hds : ∀ c ∈ ds, c.isDigit = true) (hnm : bad ∉ nm)
    (hfix : ∀ x ∈ chars "presetposno", x ≠ bad) (hbadd : bad.isDigit = false)
    (heq : ¬('=' : Char) = bad) (hcr : ¬('\r' : Char) = bad) :
    ∀ c ∈ presetLine ds nm, (c == bad) = false := by
  intro c hc
  simp only [beq_eq_false_iff_ne, ne_eq]
  have h5 : presetLine ds nm =
      chars "presetposno" ++ (ds ++ ('=' :: (nm ++ ['\r']))) := by
    simp [presetLine]
  rw [h5] at hc
  rcases List.mem_append.mp hc with h | h
  · exact hfix c h
  rcases List.mem_append.mp h with h | h
  · exact isDigit_ne (hds c h) hbadd
  rcases List.mem_cons.mp h with h | h
  · subst h; exact heq
  rcases List.mem_append.mp h with h | h
  · exact fun he => hnm (he ▸ h)
  · have h9 : c = '\r' := List.mem_singleton.mp h
    subst h9; exact hcr

theorem splitNL_presetBody (entries : List (List Char × List Char))
    (hcond : ∀ e ∈ entries, e.1 ≠ [] ∧ (∀ c ∈ e.1, c.isDigit = true) ∧
      '\n' ∉ e.2 ∧ '=' ∉ e.2 ∧ '\r' ∉ e.2) :
    splitOnChar '\n' (presetBody entries) =
      entries.map (fun e => presetLine e.1 e.2) ++ [[]] := by
  induction entries with
  | nil => rfl
  | cons e tl ih =>
    have he := hcond e (List.mem_cons_self e tl)
    have hstep : presetBody (e :: tl) =
        presetLine e.1 e.2 ++ '\n' :: presetBody tl := rfl
    rw [hstep]
    unfold splitOnChar
    rw [splitOnPred_append_sep '\n' _
      (presetLine_chars he.2.1 he.2.2.1 (by decide) (by decide) (by decide)
        (by decide))
      (by decide)]
    rw [show splitOnPred (fun c => c == '\n') (presetBody tl) =
        splitOnChar '\n' (presetBody tl) from rfl]
    rw [ih (fun x hx => hcond x (List.mem_cons_of_mem e hx))]
    simp

theorem splitEq_presetLine {ds nm : List Char}
    (hds : ∀ c ∈ ds, c.isDigit = true) (hnm : '=' ∉ nm) :
    splitOnChar '=' (presetLine ds nm) =
      [chars "presetposno" ++ ds, nm ++ ['\r']] := by
  have hassoc : presetLine ds nm =
      (chars "presetposno" ++ ds) ++ '=' :: (nm ++ ['\r']) := by
    unfold presetLine
    simp [List.append_assoc]
  rw [hassoc]
  unfold splitOnChar
  rw [splitOnPred_append_sep '=' _
    (fun c hc => by
      simp only [beq_eq_false_iff_ne, ne_eq]
      rcases List.mem_append.mp hc with h | h
      · have : ∀ x ∈ chars "presetposno", x ≠ '=' := by decide
        exact this c h
      · exact isDigit_ne (hds c h) (by decide))
    (by decide)]
  rw [splitOnPred_of_none (fun c hc => by
    simp only [beq_eq_false_iff_ne, ne_eq]
    rcases List.mem_append.mp hc with h | h
    · exact fun he => hnm (he ▸ h)
    · rw [List.mem_singleton.mp h]
      decide)]

theorem pySplitSub_presetposno {ds : List Char}
    (hds : ∀ c ∈ ds, c.isDigit = true) :
    pySplitSub (chars "presetposno") (chars "presetposno" ++ ds) = [[], ds] := by
  show splitOnSub 'p' (chars "resetposno")
    (('p' :: chars "resetposno") ++ ds) = [[], ds]
  exact splitOnSub_self_append (fun c hc => isDigit_ne (hds c hc) (by decide))

theorem presetLoop_map (entries : List (List Char × List Char))
    (hcond : ∀ e ∈ entries, e.1 ≠ [] ∧ (∀ c ∈ e.1, c.isDigit = true) ∧
      '\n' ∉ e.2 ∧ '=' ∉ e.2 ∧ '\r' ∉ e.2) :
    presetLoop (entries.map (fun e => presetLine e.1 e.2)) =
      .ok (entries.map (fun e => ((digitsVal e.1 : Int), e.2))) := by
  induction entries with
  | nil => rfl
  | cons e tl ih =>
    have he := hcond e (List.mem_cons_self e tl)
    have ih2 := ih (fun x hx => hcond x (List.mem_cons_of_mem e hx))
    have hsub : pySplitSub (chars "presetposno") (chars "presetposno" ++ e.1) =
        [[], e.1] := pySplitSub_presetposno he.2.1
    have hint : pyInt e.1 = .ok ((digitsVal e.1 : Int)) :=
      pyInt_digits he.1 he.2.1
    have hstrip : rstripCR (e.2 ++ ['\r']) = e.2 :=
      rstripCR_append he.2.2.2.2
    have hdrop : List.drop (['r','e','s','e','t','p','o','s','n','o'] : List Char).length
        ((['r','e','s','e','t','p','o','s','n','o'] : List Char).append e.1) = e.1 :=
      List.drop_left _ _
    have hF : splitOnSubF 'p' ['r','e','s','e','t','p','o','s','n','o']
        ((['r','e','s','e','t','p','o','s','n','o'] : List Char).append e.1).length e.1 =
        [e.1] :=
      splitOnSubF_of_none e.1 _
        (fun c hc => isDigit_ne (he.2.1 c hc) (by decide))
        (by simp; omega)
    rw [List.map_cons, presetLoop, splitEq_presetLine he.2.1 he.2.2.2.1]
    simp only [pyIndex, List.get?, bind, Except.bind, hsub, hint, hstrip, ih2,
      hdrop, hF, pure, Except.pure, List.map_cons]

/-- C2 amended: list_all_preset treats the first line of the body as a
header and the final segment after the trailing newline as padding:
for every body consisting of a header line followed by
presetposno<digits>=<name> lines (names free of newline, '=' and CR),
it returns exactly one (index, name) pair per entry line, in
device-reported order, with each index the numeric value of the digit
suffix of the key — so on the two-line body of the original claim the
first preset line plays the header role and only (5, "Dock") is
returned. -/
theorem c2_amended_header_line_skipped :
    ∀ (hdr : List Char) (entries : List (List Char × List Char)),
      '\n' ∉ hdr →
      (∀ e ∈ entries, e.1 ≠ [] ∧ (∀ c ∈ e.1, c.isDigit = true) ∧
        '\n' ∉ e.2 ∧ '=' ∉ e.2 ∧ '\r' ∉ e.2) →
      list_all_preset (hdr ++ '\n' :: presetBody entries) =
        .ok (entries.map (fun e => ((digitsVal e.1 : Int), e.2))) := by
  intro hdr entries hh hcond
  unfold list_all_preset
  have h1 : splitOnChar '\n' (hdr ++ '\n' :: presetBody entries) =
      hdr :: (entries.map (fun e => presetLine e.1 e.2) ++ [[]]) := by
    unfold splitOnChar
    rw [splitOnPred_append_sep '\n' _
      (fun c hc => by
        simp only [beq_eq_false_iff_ne, ne_eq]
        exact fun he => hh (he ▸ hc))
      (by decide)]
    rw [show splitOnPred (fun c => c == '\n') (presetBody entries) =
        splitOnChar '\n' (presetBody entries) from rfl]
    rw [splitNL_presetBody entries hcond]
  rw [h1]
  have h2 : (hdr :: (entries.map (fun e => presetLine e.1 e.2) ++ [[]])).length - 2 =
      (entries.map (fun e => presetLine e.1 e.2)).length := by
    simp
  show presetLoop (List.take
      ((hdr :: (entries.map (fun e => presetLine e.1 e.2) ++ [[]])).length - 2)
      (List.drop 1 (hdr :: (entries.map (fun e => presetLine e.1 e.2) ++ [[]])))) =
    Except.ok (entries.map (fun e => ((digitsVal e.1 : Int), e.2)))
  rw [h2]
  rw [show List.drop 1 (hdr :: (entries.map (fun e => presetLine e.1 e.2) ++ [[]])) =
      entries.map (fun e => presetLine e.1 e.2) ++ [[]] from rfl]
  rw [List.take_left]
  exact presetLoop_map entries hcond

/-- C2 witness: a header line followed by the two entry lines of the
spec's example body yields both pairs, with the non-contiguous indices
1 and 5 taken from the key suffixes. -/
theorem c2_amended_witness :
    list_all_preset (chars "hdr" ++ '\n' ::
        presetBody [(chars "1", chars "Entrance"), (chars "5", chars "Dock")]) =
      .ok [((1 : Int), chars "Entrance"), ((5 : Int), chars "Dock")] :=
  c2_amended_header_line_skipped (chars "hdr")
    [(chars "1", chars "Entrance"), (chars "5", chars "Dock")]
    (by decide) (by decide)
